import Mathlib

/-!
Flappy-bird simulation core of `src/main.cpp`.

A shallow embedding of the game logic of `src/main.cpp`: obstacle scrolling and
spawning (`updateTubes`), collision detection (`checkCollision`), pass-through
scoring (`checkScoreUpdate`), the boundary clamp (`boundary`) and one iteration
of the `while (true)` body of `gameLoop`.

Modelling conventions.

* The C++ `float` positions are modelled by exact rationals `ℚ`.  Every value the
  game itself produces (94, 114, 134, multiples of the speed 1.5, integer bird
  steps) is a small multiple of 1/2 and is represented exactly by a binary float,
  so on the game's own runs the model and the program agree; rounding, infinities
  and NaN of arbitrary floats are outside the model.
* The C++ `int` values (tube heights, score, `rand()`) are modelled by `Int`;
  the `%` of C++ is `Int.tmod` (truncated), and signed overflow, which is
  undefined in C++, is not modelled.
* Global mutable state is passed explicitly.  The LCD, the printf trace and the
  sleep are output only and are left out.
* `sectionIndex % tubeHeights.size()` is undefined for an empty height vector;
  the model returns `none` there.
-/

namespace FlappyBird

/-- Screen width, `const int LCD_WIDTH = 84`. -/
def LCD_WIDTH : Int := 84

/-- Screen height, `const int LCD_HEIGHT = 48`. -/
def LCD_HEIGHT : Int := 48

/-- Distance between new tubes, `float tubeInterval = 20.0f`. -/
def tubeInterval : ℚ := 20

/-- Speed of tube movement, `float tubeSpeed = 1.5f`. -/
def tubeSpeed : ℚ := 3 / 2

/-- Initial contents of the global `vector<int> tubeHeights`. -/
def initialTubeHeights : List Int := [20, 25, 15, 30]

/-- The local `int tubeWidth = 5` of `checkCollision`, `checkScoreUpdate` and `drawTubes`. -/
def tubeWidth : Int := 5

/-- The subscript `tubeHeights[sectionIndex % tubeHeights.size()]`; `none` when the
vector is empty (modulo by zero). -/
def heightAt (tubeHeights : List Int) (sectionIndex : Nat) : Option Int :=
  if tubeHeights.length = 0 then none
  else tubeHeights[sectionIndex % tubeHeights.length]?

/-- The `for (auto section : tubeSections)` loop of `checkCollision`.  The local
`sectionIndex` is threaded through the loop; the source never changes it inside the
loop body, so it is passed on as it is. -/
def checkCollisionLoop (xBirdPosition yBirdPosition : ℚ) (tubeHeights : List Int)
    (sectionIndex : Nat) : List ℚ → Option Bool
  | [] => some false
  | sec :: rest =>
    if sec > 0 then
      match heightAt tubeHeights sectionIndex with
      | none => none
      | some h =>
        if xBirdPosition ≥ sec ∧ xBirdPosition ≤ sec + (tubeWidth : ℚ) ∧
            yBirdPosition ≥ ((LCD_HEIGHT - h - 1 : Int) : ℚ) then
          some true
        else if xBirdPosition ≥ sec ∧ xBirdPosition ≤ sec + (tubeWidth : ℚ) ∧
            yBirdPosition ≤ ((LCD_HEIGHT - h - 16 : Int) : ℚ) then
          some true
        else
          checkCollisionLoop xBirdPosition yBirdPosition tubeHeights sectionIndex rest
    else
      checkCollisionLoop xBirdPosition yBirdPosition tubeHeights sectionIndex rest

/-- Collision detection, `bool checkCollision()`, over the globals it reads:
`tubeSections`, `tubeHeights`, `xBirdPosition`, `yBirdPosition`.  `sectionIndex`
starts at 0. -/
def checkCollision (tubeSections : List ℚ) (tubeHeights : List Int)
    (xBirdPosition yBirdPosition : ℚ) : Option Bool :=
  checkCollisionLoop xBirdPosition yBirdPosition tubeHeights 0 tubeSections

/-- The first loop of `updateTubes`: every tube is moved left by `speed` and kept
only when its new position is positive. -/
def moveTubes (speed : ℚ) : List ℚ → List ℚ
  | [] => []
  | sec :: rest =>
    let newPos := sec - speed
    if newPos > 0 then newPos :: moveTubes speed rest
    else moveTubes speed rest

/-- The spawn test of `updateTubes`:
`updatedSections.empty() || updatedSections.back() < (LCD_WIDTH - tubeInterval)`. -/
def spawnNeeded (updatedSections : List ℚ) : Bool :=
  match updatedSections.getLast? with
  | none => true
  | some back => decide (back < (LCD_WIDTH : ℚ) - tubeInterval)

/-- The height `updateTubes` generates for a new tube from the value `rnd` returned
by `rand()`: `minTubeHeight + rand() % (maxTubeHeight - minTubeHeight)` with
`minTubeHeight = 10` and `maxTubeHeight = LCD_HEIGHT - 16`. -/
def newTubeHeight (rnd : Int) : Int :=
  let minTubeHeight : Int := 10
  let maxTubeHeight : Int := LCD_HEIGHT - 16
  minTubeHeight + Int.tmod rnd (maxTubeHeight - minTubeHeight)

/-- Tube update, `void updateTubes(float speed)`, over the globals `tubeSections` and
`tubeHeights`; `rnd` is the value `rand()` returns if it is called.  The result is the
new pair (`tubeSections`, `tubeHeights`). -/
def updateTubes (tubeSections : List ℚ) (tubeHeights : List Int) (speed : ℚ) (rnd : Int) :
    List ℚ × List Int :=
  let updatedSections := moveTubes speed tubeSections
  if spawnNeeded updatedSections then
    (updatedSections ++ [((LCD_WIDTH + 10 : Int) : ℚ)], tubeHeights ++ [newTubeHeight rnd])
  else
    (updatedSections, tubeHeights)

/-- The scoring loop of `checkScoreUpdate`, carrying the set `passedTubes` and the flag
`scoreUpdated`. -/
def checkScoreUpdateLoop (birdXPosition : ℚ) :
    List ℚ → Finset ℚ → Bool → Finset ℚ × Bool
  | [], passedTubes, scoreUpdated => (passedTubes, scoreUpdated)
  | sec :: rest, passedTubes, scoreUpdated =>
    if sec ≤ 0 then checkScoreUpdateLoop birdXPosition rest passedTubes scoreUpdated
    else if sec ∈ passedTubes then
      checkScoreUpdateLoop birdXPosition rest passedTubes scoreUpdated
    else if birdXPosition > sec + (tubeWidth : ℚ) then
      checkScoreUpdateLoop birdXPosition rest (insert sec passedTubes) true
    else checkScoreUpdateLoop birdXPosition rest passedTubes scoreUpdated

/-- Score check, `bool checkScoreUpdate(tubeSections, passedTubes, birdXPosition)`:
the set after the call (the argument is a reference) and the returned flag. -/
def checkScoreUpdate (tubeSections : List ℚ) (passedTubes : Finset ℚ) (birdXPosition : ℚ) :
    Finset ℚ × Bool :=
  checkScoreUpdateLoop birdXPosition tubeSections passedTubes false

/-- Boundary check, `void boundary()`, on the pair (`xBirdPosition`, `yBirdPosition`):
four assignments in sequence. -/
def boundary (pos : ℚ × ℚ) : ℚ × ℚ :=
  let x1 := if pos.1 < 1 then 1 else pos.1
  let x2 := if x1 > ((LCD_WIDTH - 3 : Int) : ℚ) then ((LCD_WIDTH - 3 : Int) : ℚ) else x1
  let y1 := if pos.2 < 1 then 1 else pos.2
  let y2 := if y1 > ((LCD_HEIGHT - 3 : Int) : ℚ) then ((LCD_HEIGHT - 3 : Int) : ℚ) else y1
  (x2, y2)

/-- Modelled from the spec: the `Direction` enumeration of the Joystick library
(`Joystick.h` is not part of the sources): eight compass directions plus the
no-direction value, which takes the `default` branch of the switch in `gameLoop`. -/
inductive Direction where
  | CENTRE | N | NE | E | SE | S | SW | W | NW
  deriving DecidableEq, Repr

/-- All state one round of `gameLoop` reads and writes: the globals `tubeSections`,
`tubeHeights`, `xBirdPosition`, `yBirdPosition`, `score` and the locals `passedTubes`
and `isMovingUp`. -/
structure GameState where
  tubeSections : List ℚ
  tubeHeights : List Int
  xBirdPosition : ℚ
  yBirdPosition : ℚ
  score : Int
  passedTubes : Finset ℚ
  isMovingUp : Bool
  deriving DecidableEq

/-- What one iteration of the loop reads from outside: the level of the joystick
button pin (`buttonJoystick.read()`, low when pressed), the joystick direction and the
value `rand()` would return. -/
structure TickInput where
  buttonJoystick : Bool
  direction : Direction
  rnd : Int

/-- How one iteration of the `while (true)` loop of `gameLoop` ends: `stopped` is the
`break` on the joystick button, `collided` the `return` on a collision, `running` the
fall-through to the next iteration. -/
inductive TickStatus where
  | stopped | collided | running
  deriving DecidableEq, Repr

/-- The `switch (direction)` of `gameLoop` on (`xBirdPosition`, `yBirdPosition`,
`isMovingUp`). -/
def moveBird (direction : Direction) (x y : ℚ) (isMovingUp : Bool) : ℚ × ℚ × Bool :=
  match direction with
  | .N => (x, y - 1, true)
  | .S => (x, y + 1, false)
  | .E => (x + 1, y, isMovingUp)
  | .W => (x - 1, y, isMovingUp)
  | .NE => (x + 1, y - 1, true)
  | .NW => (x - 1, y - 1, true)
  | .SE => (x + 1, y + 1, false)
  | .SW => (x - 1, y + 1, false)
  | .CENTRE => (x, y, isMovingUp)

/-- One iteration of the `while (true)` body of `gameLoop`: button test, `updateTubes`,
bird motion, `boundary`, `checkCollision`, `checkScoreUpdate` and `score++`.  `none`
is the undefined subscript of `checkCollision` on an empty height vector. -/
def tick (st : GameState) (inp : TickInput) : Option (TickStatus × GameState) :=
  if !inp.buttonJoystick then some (.stopped, st)
  else
    let tubes := updateTubes st.tubeSections st.tubeHeights tubeSpeed inp.rnd
    let moved := moveBird inp.direction st.xBirdPosition st.yBirdPosition st.isMovingUp
    let pos := boundary (moved.1, moved.2.1)
    let st1 : GameState :=
      { st with tubeSections := tubes.1, tubeHeights := tubes.2,
                xBirdPosition := pos.1, yBirdPosition := pos.2, isMovingUp := moved.2.2 }
    match checkCollision st1.tubeSections st1.tubeHeights st1.xBirdPosition
        st1.yBirdPosition with
    | none => none
    | some true => some (.collided, st1)
    | some false =>
      let upd := checkScoreUpdate st1.tubeSections st1.passedTubes st1.xBirdPosition
      if upd.2 then
        some (.running, { st1 with passedTubes := upd.1, score := st1.score + 1 })
      else
        some (.running, { st1 with passedTubes := upd.1 })

/-- The state `gameLoop` sets up before its loop; `tubeHeights` is a global that
`gameLoop` does not reset, so its current value is a parameter. -/
def initialState (tubeHeights : List Int) : GameState :=
  { tubeSections := [((LCD_WIDTH + 10 : Int) : ℚ), ((LCD_WIDTH + 30 : Int) : ℚ),
                     ((LCD_WIDTH + 50 : Int) : ℚ)],
    tubeHeights := tubeHeights,
    xBirdPosition := 42,
    yBirdPosition := 24,
    score := 0,
    passedTubes := ∅,
    isMovingUp := false }

/-- The loop of `gameLoop` run over a finite list of per-iteration inputs from state
`st`: it goes on while the iterations end `running`, and ends at the first `stopped`
or `collided` one. -/
def runTicks (st : GameState) : List TickInput → Option (TickStatus × GameState)
  | [] => some (.running, st)
  | inp :: rest =>
    match tick st inp with
    | some (.running, st1) => runTicks st1 rest
    | other => other

/-- The function `gameLoop` over a finite list of per-iteration inputs. -/
def gameLoop (tubeHeights : List Int) (inputs : List TickInput) :
    Option (TickStatus × GameState) :=
  runTicks (initialState tubeHeights) inputs

/-- The input of an iteration in which the button is not pressed, the joystick is
centred and `rand()` would return `rnd`. -/
def idleInput (rnd : Int) : TickInput :=
  { buttonJoystick := true, direction := .CENTRE, rnd := rnd }


/-! ## Statements of the specification, in its own words -/

/-- The collision condition of the specification for a bird at (`bx`, `y`) and one
tube at `x` with gap height `h`: the tube is live, the bird is within its horizontal
span `[x, x + 5]`, and within the lower pillar (from `48 - h - 1` down) or the upper
pillar (up to `48 - h - 16`). -/
def specHits (bx y x : ℚ) (h : Int) : Prop :=
  x > 0 ∧ x ≤ bx ∧ bx ≤ x + 5 ∧ (y ≥ 48 - (h : ℚ) - 1 ∨ y ≤ 48 - (h : ℚ) - 16)

instance (bx y x : ℚ) (h : Int) : Decidable (specHits bx y x h) := by
  unfold specHits; infer_instance

/-- The tubes of a list the bird at `bx` has cleared: live, and trailing edge `s + 5`
left of the bird. -/
def clearedTubes (tubes : List ℚ) (bx : ℚ) : Finset ℚ :=
  tubes.toFinset.filter (fun s => 0 < s ∧ s + 5 < bx)

/-- The collision condition of the specification on a whole tube list: the `i`-th tube
(0-based, in list order) is tested against its own gap height
`tubeHeights[i mod tubeHeights.size()]`. -/
def specCollides (tubes : List ℚ) (tubeHeights : List Int) (bx y : ℚ) : Prop :=
  ∃ i x h, tubes[i]? = some x ∧ tubeHeights[i % tubeHeights.length]? = some h ∧
    specHits bx y x h

/-- The rightmost tube of a list in the words of the specification: the one with the
largest `x`; `none` for the empty list. -/
def rightmost : List ℚ → Option ℚ
  | [] => none
  | x :: rest =>
    match rightmost rest with
    | none => some x
    | some m => some (max x m)

/-- The spawn rule of the specification for one call of `updateTubes(speed)` that turns
the tube list `tubes` into `updated`: the result is the old positions minus `speed` that
are > 0, in their original order, followed by exactly one new tube at 94 when that
shifted list is empty or its rightmost (largest-x) tube is < 64, and by nothing
otherwise. -/
def specSpawnRule (tubes updated : List ℚ) (speed : ℚ) : Prop :=
  ((((tubes.map (fun s => s - speed)).filter (fun p => decide (p > 0)) = [] ∨
      ∃ m, rightmost ((tubes.map (fun s => s - speed)).filter (fun p => decide (p > 0))) =
        some m ∧ m < 64) →
    updated = (tubes.map (fun s => s - speed)).filter (fun p => decide (p > 0)) ++ [94]) ∧
  (¬ ((tubes.map (fun s => s - speed)).filter (fun p => decide (p > 0)) = [] ∨
      ∃ m, rightmost ((tubes.map (fun s => s - speed)).filter (fun p => decide (p > 0))) =
        some m ∧ m < 64) →
    updated = (tubes.map (fun s => s - speed)).filter (fun p => decide (p > 0))))

/-- The input of an iteration in which the button is not pressed and the joystick
points in `direction`. -/
def steer (direction : Direction) : TickInput :=
  { buttonJoystick := true, direction := direction, rnd := 0 }

/-- A state with two tubes just right of the positions the bird at x = 42 has
cleared after one more shift, and nothing credited yet. -/
def twoTubesAhead : GameState :=
  { tubeSections := [10, 20, 90], tubeHeights := initialTubeHeights, xBirdPosition := 42,
    yBirdPosition := 24, score := 0, passedTubes := ∅, isMovingUp := false }

/-- The state one idle iteration after `twoTubesAhead`. -/
def twoTubesPassed : GameState :=
  { tubeSections := [17 / 2, 37 / 2, 177 / 2], tubeHeights := initialTubeHeights,
    xBirdPosition := 42, yBirdPosition := 24, score := 1, passedTubes := {37 / 2, 17 / 2},
    isMovingUp := false }

/-- The tube layout `gameLoop` sets up at the start of a round,
`{LCD_WIDTH + 10, LCD_WIDTH + 30, LCD_WIDTH + 50}`. -/
def initialTubes : List ℚ := (initialState initialTubeHeights).tubeSections

/-- Repeated calls of `updateTubes(speed)` on the pair (`tubeSections`, `tubeHeights`), one
call per element of the list, which gives the value `rand()` would return in that call. -/
def updateTubesRepeated (speed : ℚ) : List Int → List ℚ × List Int → List ℚ × List Int
  | [], s => s
  | rnd :: rest, s => updateTubesRepeated speed rest (updateTubes s.1 s.2 speed rnd)

/-- The tube positions one call of `updateTubes(speed)` leaves; the heights and `rand()`
have no part in them. -/
def advanceTubes (speed : ℚ) (tubes : List ℚ) : List ℚ :=
  (updateTubes tubes [] speed 0).1

/-- A state in which the next shift puts a tube under the bird at (42, 30), inside the
lower pillar of height 20, with a score and a passed set from earlier iterations. -/
def tubeAtBird : GameState :=
  { tubeSections := [87 / 2, 60], tubeHeights := initialTubeHeights, xBirdPosition := 42,
    yBirdPosition := 30, score := 3, passedTubes := {10}, isMovingUp := false }

/-! ## Lemmas on `checkCollision` -/

theorem heightAt_cons_zero (h : Int) (hs : List Int) : heightAt (h :: hs) 0 = some h := by
  simp [heightAt]

/-- One step of the loop of `checkCollision` with a non-empty height vector: the
head tube either ends the loop with `true` or is passed over. -/
theorem checkCollisionLoop_cons (bx y : ℚ) (h : Int) (hs : List Int) (sec : ℚ)
    (rest : List ℚ) :
    checkCollisionLoop bx y (h :: hs) 0 (sec :: rest) =
      if specHits bx y sec h then some true
      else checkCollisionLoop bx y (h :: hs) 0 rest := by
  have e1 : ((LCD_HEIGHT - h - 1 : Int) : ℚ) = 48 - (h : ℚ) - 1 := by simp [LCD_HEIGHT]
  have e2 : ((LCD_HEIGHT - h - 16 : Int) : ℚ) = 48 - (h : ℚ) - 16 := by simp [LCD_HEIGHT]
  have e3 : ((tubeWidth : Int) : ℚ) = 5 := by simp [tubeWidth]
  simp only [checkCollisionLoop, heightAt_cons_zero, e1, e2, e3, specHits, ge_iff_le,
    gt_iff_lt]
  split_ifs <;> first | rfl | (exfalso; tauto)

/-- With a non-empty height vector the loop of `checkCollision`, started with
`sectionIndex = 0`, returns a value, and that value is `true` exactly when some tube of
the list is hit under the first height. -/
theorem checkCollisionLoop_first_height (bx y : ℚ) (h : Int) (hs : List Int)
    (tubes : List ℚ) :
    ∃ b, checkCollisionLoop bx y (h :: hs) 0 tubes = some b ∧
      (b = true ↔ ∃ x ∈ tubes, specHits bx y x h) := by
  induction tubes with
  | nil => exact ⟨false, rfl, by simp⟩
  | cons sec rest ih =>
    obtain ⟨b, hb, hiff⟩ := ih
    rw [checkCollisionLoop_cons]
    by_cases hit : specHits bx y sec h
    · exact ⟨true, by rw [if_pos hit], by simpa using Or.inl hit⟩
    · refine ⟨b, by rw [if_neg hit, hb], ?_⟩
      rw [hiff]
      simp [hit]

/-- The result of `checkCollision` on a non-empty height vector, as a Boolean. -/
theorem checkCollision_eq_decide (bx y : ℚ) (h : Int) (hs : List Int) (tubes : List ℚ) :
    checkCollision tubes (h :: hs) bx y = some (decide (∃ x ∈ tubes, specHits bx y x h)) := by
  obtain ⟨b, hb, hiff⟩ := checkCollisionLoop_first_height bx y h hs tubes
  rw [checkCollision, hb]
  congr 1
  by_cases hp : ∃ x ∈ tubes, specHits bx y x h
  · simp [hp, hiff.mpr hp]
  · have : b ≠ true := fun hbt => hp (hiff.mp hbt)
    simp [hp, this]

/-! ## Lemmas on `checkScoreUpdate` -/

theorem checkScoreUpdateLoop_cons (bx sec : ℚ) (rest : List ℚ) (P : Finset ℚ) (f : Bool) :
    checkScoreUpdateLoop bx (sec :: rest) P f =
      if 0 < sec ∧ sec ∉ P ∧ sec + 5 < bx then checkScoreUpdateLoop bx rest (insert sec P) true
      else checkScoreUpdateLoop bx rest P f := by
  have e3 : ((tubeWidth : Int) : ℚ) = 5 := by simp [tubeWidth]
  simp only [checkScoreUpdateLoop, e3, gt_iff_lt]
  split_ifs <;>
    first
    | rfl
    | (exfalso; simp only [not_le, not_lt] at *; first | linarith | tauto)

theorem checkScoreUpdateLoop_set (bx : ℚ) (tubes : List ℚ) (P : Finset ℚ) (f : Bool) :
    (checkScoreUpdateLoop bx tubes P f).1 = P ∪ clearedTubes tubes bx := by
  induction tubes generalizing P f with
  | nil => simp [checkScoreUpdateLoop, clearedTubes]
  | cons sec rest ih =>
    rw [checkScoreUpdateLoop_cons]
    split_ifs with hc
    · rw [ih]
      ext a
      simp only [clearedTubes, Finset.mem_union, Finset.mem_insert, Finset.mem_filter,
        List.mem_toFinset, List.mem_cons]
      constructor
      · rintro ((rfl | h) | h)
        · exact Or.inr ⟨Or.inl rfl, hc.1, hc.2.2⟩
        · exact Or.inl h
        · exact Or.inr ⟨Or.inr h.1, h.2⟩
      · rintro (h | ⟨rfl | h, h2⟩)
        · exact Or.inl (Or.inr h)
        · exact Or.inl (Or.inl rfl)
        · exact Or.inr ⟨h, h2⟩
    · rw [ih]
      ext a
      simp only [clearedTubes, Finset.mem_union, Finset.mem_filter, List.mem_toFinset,
        List.mem_cons]
      constructor
      · rintro (h | h)
        · exact Or.inl h
        · exact Or.inr ⟨Or.inr h.1, h.2⟩
      · rintro (h | ⟨rfl | h, h2⟩)
        · exact Or.inl h
        · by_contra hne
          push_neg at hne
          exact hc ⟨h2.1, hne.1, h2.2⟩
        · exact Or.inr ⟨h, h2⟩

theorem checkScoreUpdateLoop_flag (bx : ℚ) (tubes : List ℚ) (P : Finset ℚ) (f : Bool) :
    (checkScoreUpdateLoop bx tubes P f).2 = true ↔
      f = true ∨ ∃ s ∈ tubes, 0 < s ∧ s + 5 < bx ∧ s ∉ P := by
  induction tubes generalizing P f with
  | nil => simp [checkScoreUpdateLoop]
  | cons sec rest ih =>
    rw [checkScoreUpdateLoop_cons]
    split_ifs with hc
    · rw [ih]
      constructor
      · intro _
        exact Or.inr ⟨sec, List.mem_cons_self _ _, hc.1, hc.2.2, hc.2.1⟩
      · intro _
        exact Or.inl rfl
    · rw [ih]
      constructor
      · rintro (h | ⟨s, hs, h⟩)
        · exact Or.inl h
        · exact Or.inr ⟨s, List.mem_cons_of_mem _ hs, h⟩
      · rintro (h | ⟨s, hs, h⟩)
        · exact Or.inl h
        · rcases List.mem_cons.mp hs with rfl | hmem
          · exact absurd ⟨h.1, h.2.2, h.2.1⟩ hc
          · exact Or.inr ⟨s, hmem, h⟩

theorem checkScoreUpdate_set (tubes : List ℚ) (P : Finset ℚ) (bx : ℚ) :
    (checkScoreUpdate tubes P bx).1 = P ∪ clearedTubes tubes bx :=
  checkScoreUpdateLoop_set bx tubes P false

theorem checkScoreUpdate_flag (tubes : List ℚ) (P : Finset ℚ) (bx : ℚ) :
    (checkScoreUpdate tubes P bx).2 = true ↔ ∃ s ∈ tubes, 0 < s ∧ s + 5 < bx ∧ s ∉ P := by
  rw [checkScoreUpdate, checkScoreUpdateLoop_flag]
  simp

/-- The flag of `checkScoreUpdate` is raised exactly when the set has grown. -/
theorem checkScoreUpdate_flag_iff_grew (tubes : List ℚ) (P : Finset ℚ) (bx : ℚ) :
    (checkScoreUpdate tubes P bx).2 = true ↔
      0 < ((checkScoreUpdate tubes P bx).1 \ P).card := by
  rw [checkScoreUpdate_flag, checkScoreUpdate_set, Finset.card_pos]
  constructor
  · rintro ⟨s, hs, h1, h2, h3⟩
    refine ⟨s, ?_⟩
    simp only [clearedTubes, Finset.mem_sdiff, Finset.mem_union, Finset.mem_filter,
      List.mem_toFinset]
    exact ⟨Or.inr ⟨hs, h1, h2⟩, h3⟩
  · rintro ⟨s, hs⟩
    simp only [clearedTubes, Finset.mem_sdiff, Finset.mem_union, Finset.mem_filter,
      List.mem_toFinset] at hs
    rcases hs with ⟨h | h, hn⟩
    · exact absurd h hn
    · exact ⟨s, h.1, h.2.1, h.2.2, hn⟩

/-! ## Lemmas on `updateTubes` -/

theorem moveTubes_eq_filter_map (speed : ℚ) (tubes : List ℚ) :
    moveTubes speed tubes = (tubes.map (fun s => s - speed)).filter (fun p => decide (p > 0)) := by
  induction tubes with
  | nil => rfl
  | cons sec rest ih =>
    by_cases hp : sec - speed > 0
    · simp [moveTubes, hp, ih]
    · simp [moveTubes, hp, ih]

theorem moveTubes_pos (speed : ℚ) (tubes : List ℚ) : ∀ x ∈ moveTubes speed tubes, 0 < x := by
  intro x hx
  rw [moveTubes_eq_filter_map] at hx
  simpa using (List.mem_filter.mp hx).2

theorem moveTubes_length_le (speed : ℚ) (tubes : List ℚ) :
    (moveTubes speed tubes).length ≤ tubes.length := by
  rw [moveTubes_eq_filter_map]
  exact (List.length_filter_le _ _).trans (by simp)

theorem spawnNeeded_iff (l : List ℚ) :
    spawnNeeded l = true ↔ l = [] ∨ ∃ back, l.getLast? = some back ∧ back < 64 := by
  unfold spawnNeeded
  cases hl : l.getLast? with
  | none =>
    have : l = [] := by simpa using hl
    simp [this]
  | some b =>
    have hne : l ≠ [] := by
      intro h
      simp [h] at hl
    simp only [decide_eq_true_eq, hne, false_or, Option.some.injEq, exists_eq_left']
    norm_num [LCD_WIDTH, tubeInterval]

theorem updateTubes_sections (tubes : List ℚ) (hs : List Int) (speed : ℚ) (rnd : Int) :
    (updateTubes tubes hs speed rnd).1 =
      moveTubes speed tubes ++ (if spawnNeeded (moveTubes speed tubes) then [94] else []) := by
  by_cases h : spawnNeeded (moveTubes speed tubes) = true <;> simp [updateTubes, h, LCD_WIDTH]

/-- In a strictly ascending list the last element is the largest one. -/
theorem getLast?_eq_rightmost_of_ascending (l : List ℚ) (h : l.Pairwise (fun a b => a < b)) :
    l.getLast? = rightmost l := by
  induction l with
  | nil => rfl
  | cons x rest ih =>
    have ih1 := ih (List.Pairwise.of_cons h)
    cases rest with
    | nil => rfl
    | cons y ys =>
      rw [List.getLast?_cons_cons, rightmost, ← ih1]
      cases hl : (y :: ys).getLast? with
      | none => simp at hl
      | some m =>
        have hm : m ∈ y :: ys := List.mem_of_getLast?_eq_some hl
        have hlt : x < m := (List.pairwise_cons.mp h).1 m hm
        simp [max_eq_right (le_of_lt hlt)]

/-! ## Lemmas on the loop body of `gameLoop` -/

/-- An iteration that falls through to the next one: the button was not pressed, no
collision was found, the score is left alone or increased by one according to the flag
of `checkScoreUpdate`, and every other field is as the steps of the body leave it. -/
theorem tick_running (st st1 : GameState) (inp : TickInput)
    (h : tick st inp = some (.running, st1)) :
    inp.buttonJoystick = true ∧
    st1.tubeSections = (updateTubes st.tubeSections st.tubeHeights tubeSpeed inp.rnd).1 ∧
    st1.tubeHeights = (updateTubes st.tubeSections st.tubeHeights tubeSpeed inp.rnd).2 ∧
    (st1.xBirdPosition, st1.yBirdPosition) =
      boundary ((moveBird inp.direction st.xBirdPosition st.yBirdPosition st.isMovingUp).1,
        (moveBird inp.direction st.xBirdPosition st.yBirdPosition st.isMovingUp).2.1) ∧
    checkCollision st1.tubeSections st1.tubeHeights st1.xBirdPosition st1.yBirdPosition =
      some false ∧
    st1.passedTubes =
      (checkScoreUpdate st1.tubeSections st.passedTubes st1.xBirdPosition).1 ∧
    st1.score = st.score +
      (if (checkScoreUpdate st1.tubeSections st.passedTubes st1.xBirdPosition).2 then 1
       else 0) := by
  unfold tick at h
  by_cases hb : inp.buttonJoystick = true
  · simp only [hb, Bool.not_true, Bool.false_eq_true, if_false] at h
    split at h
    · exact absurd h (by simp)
    · exact absurd h (by simp)
    · rename_i hcol
      split_ifs at h with hf
      · simp only [Option.some.injEq, Prod.mk.injEq, true_and] at h
        subst h
        exact ⟨hb, rfl, rfl, rfl, hcol, rfl, by simp only [hf, if_true]⟩
      · simp only [Option.some.injEq, Prod.mk.injEq, true_and] at h
        subst h
        exact ⟨hb, rfl, rfl, rfl, hcol, rfl, by simp only [hf]; simp⟩
  · simp [hb] at h

theorem tick_stopped (st : GameState) (inp : TickInput) (h : inp.buttonJoystick = false) :
    tick st inp = some (.stopped, st) := by
  simp [tick, h]

/-- An iteration in which the button is not pressed ends `collided` or `running` with
the tubes and heights `updateTubes` leaves; when it ends `collided`, the score and the
passed set are the ones it started with. -/
theorem tick_not_pressed (st st1 : GameState) (inp : TickInput) (s : TickStatus)
    (hb : inp.buttonJoystick = true) (h : tick st inp = some (s, st1)) :
    s ≠ .stopped ∧
    st1.tubeSections = (updateTubes st.tubeSections st.tubeHeights tubeSpeed inp.rnd).1 ∧
    st1.tubeHeights = (updateTubes st.tubeSections st.tubeHeights tubeSpeed inp.rnd).2 ∧
    (s = .collided → st1.score = st.score ∧ st1.passedTubes = st.passedTubes) := by
  unfold tick at h
  simp only [hb, Bool.not_true, Bool.false_eq_true, if_false] at h
  split at h
  · exact absurd h (by simp)
  · simp only [Option.some.injEq, Prod.mk.injEq] at h
    obtain ⟨rfl, rfl⟩ := h
    exact ⟨by decide, rfl, rfl, fun _ => ⟨rfl, rfl⟩⟩
  · split_ifs at h with hf
    · simp only [Option.some.injEq, Prod.mk.injEq] at h
      obtain ⟨rfl, rfl⟩ := h
      exact ⟨by decide, rfl, rfl, fun hc => absurd hc (by decide)⟩
    · simp only [Option.some.injEq, Prod.mk.injEq] at h
      obtain ⟨rfl, rfl⟩ := h
      exact ⟨by decide, rfl, rfl, fun hc => absurd hc (by decide)⟩

theorem updateTubes_heights (tubes : List ℚ) (hs : List Int) (speed : ℚ) (rnd : Int) :
    (updateTubes tubes hs speed rnd).2 =
      hs ++ (if spawnNeeded (moveTubes speed tubes) then [newTubeHeight rnd] else []) := by
  by_cases h : spawnNeeded (moveTubes speed tubes) = true <;> simp [updateTubes, h]

theorem updateTubes_heights_extend (tubes : List ℚ) (hs : List Int) (speed : ℚ) (rnd : Int) :
    hs <+: (updateTubes tubes hs speed rnd).2 := by
  rw [updateTubes_heights]
  exact List.prefix_append _ _

theorem checkCollision_isSome (tubes : List ℚ) (hs : List Int) (bx y : ℚ) (hne : hs ≠ []) :
    ∃ b, checkCollision tubes hs bx y = some b := by
  cases hs with
  | nil => exact absurd rfl hne
  | cons h rest => exact ⟨_, checkCollision_eq_decide bx y h rest tubes⟩

theorem ne_nil_of_extends {l1 l2 : List Int} (hne : l1 ≠ []) (hp : l1 <+: l2) : l2 ≠ [] := by
  rintro rfl
  exact hne (List.prefix_nil.mp hp)

/-- Every iteration leaves the old height vector as a prefix of the new one. -/
theorem tick_heights_extend (st st1 : GameState) (inp : TickInput) (s : TickStatus)
    (h : tick st inp = some (s, st1)) : st.tubeHeights <+: st1.tubeHeights := by
  by_cases hb : inp.buttonJoystick = true
  · rw [(tick_not_pressed st st1 inp s hb h).2.2.1]
    exact updateTubes_heights_extend _ _ _ _
  · have hb1 : inp.buttonJoystick = false := by simpa using hb
    rw [tick_stopped st inp hb1] at h
    simp only [Option.some.injEq, Prod.mk.injEq] at h
    rw [← h.2]

/-- With a non-empty height vector an iteration has a defined outcome. -/
theorem tick_isSome (st : GameState) (inp : TickInput) (hne : st.tubeHeights ≠ []) :
    ∃ r, tick st inp = some r := by
  by_cases hb : inp.buttonJoystick = true
  · have hne1 : (updateTubes st.tubeSections st.tubeHeights tubeSpeed inp.rnd).2 ≠ [] :=
      ne_nil_of_extends hne (updateTubes_heights_extend _ _ _ _)
    obtain ⟨b, hc⟩ := checkCollision_isSome
      (updateTubes st.tubeSections st.tubeHeights tubeSpeed inp.rnd).1
      (updateTubes st.tubeSections st.tubeHeights tubeSpeed inp.rnd).2
      (boundary ((moveBird inp.direction st.xBirdPosition st.yBirdPosition st.isMovingUp).1,
        (moveBird inp.direction st.xBirdPosition st.yBirdPosition st.isMovingUp).2.1)).1
      (boundary ((moveBird inp.direction st.xBirdPosition st.yBirdPosition st.isMovingUp).1,
        (moveBird inp.direction st.xBirdPosition st.yBirdPosition st.isMovingUp).2.1)).2
      hne1
    cases b with
    | true => exact ⟨_, by simp only [tick, hb, hc]; rfl⟩
    | false =>
      by_cases hf : (checkScoreUpdate
          (updateTubes st.tubeSections st.tubeHeights tubeSpeed inp.rnd).1 st.passedTubes
          (boundary ((moveBird inp.direction st.xBirdPosition st.yBirdPosition
            st.isMovingUp).1,
            (moveBird inp.direction st.xBirdPosition st.yBirdPosition
              st.isMovingUp).2.1)).1).2 = true
      · exact ⟨_, by simp only [tick, hb, hc, hf]; rfl⟩
      · exact ⟨_, by simp only [tick, hb, hc, hf]; rfl⟩
  · have hb1 : inp.buttonJoystick = false := by simpa using hb
    exact ⟨_, tick_stopped st inp hb1⟩

theorem runTicks_cons (st : GameState) (inp : TickInput) (rest : List TickInput) :
    runTicks st (inp :: rest) =
      match tick st inp with
      | some (.running, st1) => runTicks st1 rest
      | other => other := rfl

/-- The height vector at the start of a run is a prefix of the one at its end. -/
theorem runTicks_heights_extend (inputs : List TickInput) (st st1 : GameState)
    (s : TickStatus) (h : runTicks st inputs = some (s, st1)) :
    st.tubeHeights <+: st1.tubeHeights := by
  induction inputs generalizing st with
  | nil =>
    simp only [runTicks, Option.some.injEq, Prod.mk.injEq] at h
    rw [← h.2]
  | cons inp rest ih =>
    rw [runTicks_cons] at h
    cases ht : tick st inp with
    | none => rw [ht] at h; exact absurd h (by simp)
    | some r =>
      obtain ⟨s2, st2⟩ := r
      have hp := tick_heights_extend st st2 inp s2 ht
      rw [ht] at h
      cases s2 with
      | running => exact hp.trans (ih st2 h)
      | stopped =>
        simp only [Option.some.injEq, Prod.mk.injEq] at h
        rw [← h.2]; exact hp
      | collided =>
        simp only [Option.some.injEq, Prod.mk.injEq] at h
        rw [← h.2]; exact hp

/-- A run that starts with a non-empty height vector has a defined outcome. -/
theorem runTicks_isSome (inputs : List TickInput) (st : GameState)
    (hne : st.tubeHeights ≠ []) : ∃ r, runTicks st inputs = some r := by
  induction inputs generalizing st with
  | nil => exact ⟨_, rfl⟩
  | cons inp rest ih =>
    obtain ⟨⟨s2, st2⟩, ht⟩ := tick_isSome st inp hne
    have hp := tick_heights_extend st st2 inp s2 ht
    rw [runTicks_cons, ht]
    cases s2 with
    | running => exact ih st2 (ne_nil_of_extends hne hp)
    | stopped => exact ⟨_, rfl⟩
    | collided => exact ⟨_, rfl⟩

theorem updateTubesRepeated_heights_extend (speed : ℚ) (rnds : List Int)
    (s : List ℚ × List Int) : s.2 <+: (updateTubesRepeated speed rnds s).2 := by
  induction rnds generalizing s with
  | nil => exact List.prefix_refl _
  | cons rnd rest ih =>
    exact (updateTubes_heights_extend s.1 s.2 speed rnd).trans (ih _)

theorem boundary_eq_clamp (x y : ℚ) :
    boundary (x, y) = (min (max x 1) 81, min (max y 1) 45) := by
  have e1 : ((LCD_WIDTH - 3 : Int) : ℚ) = 81 := by norm_num [LCD_WIDTH]
  have e2 : ((LCD_HEIGHT - 3 : Int) : ℚ) = 45 := by norm_num [LCD_HEIGHT]
  have key : ∀ v lim : ℚ, 1 ≤ lim →
      (if (if v < 1 then 1 else v) > lim then lim else (if v < 1 then 1 else v)) =
        min (max v 1) lim := by
    intro v lim hl
    by_cases hv : v < 1
    · rw [if_pos hv, max_eq_right (le_of_lt hv), min_eq_left hl, if_neg (not_lt.mpr hl)]
    · rw [if_neg hv, max_eq_left (not_lt.mp hv)]
      by_cases hv2 : v > lim
      · rw [if_pos hv2, min_eq_right (le_of_lt hv2)]
      · rw [if_neg hv2, min_eq_left (not_lt.mp hv2)]
  simp only [boundary, e1, e2]
  rw [key x 81 (by norm_num), key y 45 (by norm_num)]

theorem boundary_of_mem_range (x y : ℚ) (hx1 : 1 ≤ x) (hx2 : x ≤ 81) (hy1 : 1 ≤ y)
    (hy2 : y ≤ 45) : boundary (x, y) = (x, y) := by
  rw [boundary_eq_clamp, max_eq_left hx1, max_eq_left hy1, min_eq_left hx2, min_eq_left hy2]

theorem boundary_mem_range (x y : ℚ) :
    1 ≤ (boundary (x, y)).1 ∧ (boundary (x, y)).1 ≤ 81 ∧
    1 ≤ (boundary (x, y)).2 ∧ (boundary (x, y)).2 ≤ 45 := by
  rw [boundary_eq_clamp]
  refine ⟨le_min (le_max_right _ _) (by norm_num), min_le_right _ _,
    le_min (le_max_right _ _) (by norm_num), min_le_right _ _⟩

/-! ## Lemmas on repeated calls of `updateTubes` -/

theorem updateTubes_fst_eq_advanceTubes (tubes : List ℚ) (hs : List Int) (speed : ℚ)
    (rnd : Int) : (updateTubes tubes hs speed rnd).1 = advanceTubes speed tubes := by
  rw [advanceTubes, updateTubes_sections, updateTubes_sections]

theorem updateTubesRepeated_fst (speed : ℚ) (rnds : List Int) (s : List ℚ × List Int) :
    (updateTubesRepeated speed rnds s).1 = (advanceTubes speed)^[rnds.length] s.1 := by
  induction rnds generalizing s with
  | nil => rfl
  | cons rnd rest ih =>
    rw [updateTubesRepeated, ih, List.length_cons, Function.iterate_succ_apply,
      updateTubes_fst_eq_advanceTubes]

theorem initialTubes_eq : initialTubes = [94, 114, 134] := by
  decide!

/-- From the 90th call on, the tube layout of a round repeats every 21 calls. -/
theorem advanceTubes_period :
    (advanceTubes tubeSpeed)^[111] initialTubes = (advanceTubes tubeSpeed)^[90] initialTubes := by
  decide!

/-- Every layout a round reaches is one of its first 111 layouts. -/
theorem advanceTubes_orbit (n : Nat) :
    ∃ k, k < 111 ∧
      (advanceTubes tubeSpeed)^[n] initialTubes = (advanceTubes tubeSpeed)^[k] initialTubes := by
  induction n using Nat.strong_induction_on with
  | _ n ih =>
    by_cases hn : n < 111
    · exact ⟨n, hn, rfl⟩
    · obtain ⟨k, hk, he⟩ := ih (n - 21) (by omega)
      refine ⟨k, hk, ?_⟩
      rw [← he]
      have e1 : n = (n - 111) + 111 := by omega
      have e2 : n - 21 = (n - 111) + 90 := by omega
      rw [e2, Function.iterate_add_apply, ← advanceTubes_period, ← Function.iterate_add_apply,
        ← e1]

theorem advanceTubes_first_layouts_length :
    ∀ l ∈ List.iterate (advanceTubes tubeSpeed) initialTubes 111, l.length ≤ 4 := by
  decide!

theorem advanceTubes_iterate_length (n : Nat) :
    ((advanceTubes tubeSpeed)^[n] initialTubes).length ≤ 4 := by
  obtain ⟨k, hk, he⟩ := advanceTubes_orbit n
  rw [he]
  exact advanceTubes_first_layouts_length _ (List.mem_iterate.mpr ⟨k, hk, rfl⟩)

/-- The tubes at the end of a run are the tubes at its start after some number of calls
of `updateTubes(tubeSpeed)`. -/
theorem runTicks_sections (inputs : List TickInput) (st st1 : GameState) (s : TickStatus)
    (h : runTicks st inputs = some (s, st1)) :
    ∃ k, st1.tubeSections = (advanceTubes tubeSpeed)^[k] st.tubeSections := by
  induction inputs generalizing st with
  | nil =>
    simp only [runTicks, Option.some.injEq, Prod.mk.injEq] at h
    exact ⟨0, by rw [← h.2]; rfl⟩
  | cons inp rest ih =>
    rw [runTicks_cons] at h
    cases ht : tick st inp with
    | none => rw [ht] at h; exact absurd h (by simp)
    | some r =>
      obtain ⟨s2, st2⟩ := r
      rw [ht] at h
      by_cases hb : inp.buttonJoystick = true
      · have hsec := (tick_not_pressed st st2 inp s2 hb ht).2.1
        rw [updateTubes_fst_eq_advanceTubes] at hsec
        cases s2 with
        | running =>
          obtain ⟨k, hk⟩ := ih st2 h
          exact ⟨k + 1, by rw [hk, hsec, Function.iterate_succ_apply]⟩
        | stopped =>
          simp only [Option.some.injEq, Prod.mk.injEq] at h
          exact ⟨1, by rw [← h.2, hsec]; rfl⟩
        | collided =>
          simp only [Option.some.injEq, Prod.mk.injEq] at h
          exact ⟨1, by rw [← h.2, hsec]; rfl⟩
      · have hb1 : inp.buttonJoystick = false := by simpa using hb
        rw [tick_stopped st inp hb1] at ht
        simp only [Option.some.injEq, Prod.mk.injEq] at ht
        rw [← ht.1] at h
        simp only [Option.some.injEq, Prod.mk.injEq] at h
        exact ⟨0, by rw [← h.2, ← ht.2]; rfl⟩

/-! ## Lemmas on ascending tube lists -/

theorem moveTubes_pairwise (speed : ℚ) (tubes : List ℚ)
    (h : tubes.Pairwise (fun a b => a < b)) :
    (moveTubes speed tubes).Pairwise (fun a b => a < b) := by
  rw [moveTubes_eq_filter_map]
  apply List.Pairwise.filter
  exact List.Pairwise.map _ (fun a b hab => by linarith) h

theorem lt_of_mem_of_getLast? (l : List ℚ) (b c : ℚ) (hl : l.getLast? = some b)
    (hb : b < c) (hs : l.Pairwise (fun a b => a < b)) : ∀ a ∈ l, a < c := by
  intro a ha
  obtain ⟨ys, rfl⟩ := List.getLast?_eq_some_iff.mp hl
  rcases List.mem_append.mp ha with h1 | h1
  · exact lt_trans ((List.pairwise_append.mp hs).2.2 a h1 b (List.mem_singleton_self b)) hb
  · rw [List.mem_singleton.mp h1]; exact hb

theorem advanceTubes_pairwise (speed : ℚ) (tubes : List ℚ)
    (h : tubes.Pairwise (fun a b => a < b)) :
    (advanceTubes speed tubes).Pairwise (fun a b => a < b) := by
  have hm := moveTubes_pairwise speed tubes h
  rw [advanceTubes, updateTubes_sections]
  split_ifs with hsp
  · rw [List.pairwise_append]
    refine ⟨hm, List.pairwise_singleton _ _, ?_⟩
    intro a ha b hb
    rw [List.mem_singleton.mp hb]
    rcases (spawnNeeded_iff _).mp hsp with he | ⟨back, hl, hlt⟩
    · rw [he] at ha; simp at ha
    · exact lt_of_mem_of_getLast? _ back 94 hl (by linarith) hm a ha
  · rw [List.append_nil]; exact hm

theorem advanceTubes_iterate_pairwise (speed : ℚ) (n : Nat) (tubes : List ℚ)
    (h : tubes.Pairwise (fun a b => a < b)) :
    ((advanceTubes speed)^[n] tubes).Pairwise (fun a b => a < b) := by
  induction n generalizing tubes with
  | zero => exact h
  | succ n ih =>
    rw [Function.iterate_succ_apply]
    exact ih _ (advanceTubes_pairwise speed tubes h)

theorem initialTubes_pairwise : initialTubes.Pairwise (fun a b => a < b) := by
  rw [initialTubes_eq]
  simp only [List.pairwise_cons, List.mem_cons, List.mem_singleton, List.not_mem_nil,
    List.Pairwise.nil, forall_eq_or_imp, forall_eq]
  norm_num

/-- On a strictly ascending tube list `updateTubes` follows the spawn rule of the
specification: `back()` of the shifted list is its rightmost tube. -/
theorem specSpawnRule_of_ascending (tubes : List ℚ) (hs : List Int) (speed : ℚ) (rnd : Int)
    (h : tubes.Pairwise (fun a b => a < b)) :
    specSpawnRule tubes (updateTubes tubes hs speed rnd).1 speed := by
  have hr := getLast?_eq_rightmost_of_ascending _ (moveTubes_pairwise speed tubes h)
  unfold specSpawnRule
  rw [← moveTubes_eq_filter_map, ← hr, updateTubes_sections]
  constructor
  · intro hc
    rw [if_pos ((spawnNeeded_iff _).mpr hc)]
  · intro hc
    rw [if_neg (fun hsp => hc ((spawnNeeded_iff _).mp hsp)), List.append_nil]

/-! ## The claims -/

/-- C1: for every bird position (bx, y), tube position x and height list with first
entry h, `checkCollision` on the single-tube list [x] returns a value, and returns true
exactly when x > 0 and x <= bx <= x + 5 and (y >= 48 - h - 1 or y <= 48 - h - 16).
Scenario A (bird (42,24), tube 50, h = 20) gives false; Scenario B (bird x in [50,55],
y = 30, same tube) gives true. -/
theorem checkCollision_single_tube :
    (∀ (bx y x : ℚ) (h : Int) (hs : List Int),
      ∃ b, checkCollision [x] (h :: hs) bx y = some b ∧
        (b = true ↔
          (x > 0 ∧ x ≤ bx ∧ bx ≤ x + 5 ∧ (y ≥ 48 - (h : ℚ) - 1 ∨ y ≤ 48 - (h : ℚ) - 16)))) ∧
    checkCollision [50] [20] 42 24 = some false ∧
    (∀ bx : ℚ, 50 ≤ bx → bx ≤ 55 → checkCollision [50] [20] bx 30 = some true) := by
  refine ⟨?_, ?_, ?_⟩
  · intro bx y x h hs
    obtain ⟨b, hb, hiff⟩ := checkCollisionLoop_first_height bx y h hs [x]
    refine ⟨b, hb, ?_⟩
    rw [hiff]
    simp [specHits]
  · rw [checkCollision_eq_decide]
    simp only [Option.some.injEq, decide_eq_false_iff_not]
    rintro ⟨x, hx, hit⟩
    simp only [List.mem_singleton] at hx
    subst hx
    norm_num [specHits] at hit
  · intro bx h1 h2
    rw [checkCollision_eq_decide]
    simp only [Option.some.injEq, decide_eq_true_eq]
    refine ⟨50, by simp, ?_⟩
    refine ⟨by norm_num, h1, by linarith, Or.inl (by norm_num)⟩

/-- C2 (the code departs from the claim): in the round played with 38 centred
iterations and then 12 iterations north, the 50th iteration ends with a collision,
with tubes at 19, 39, 59, 89.5 and the bird at (42, 12); the bird is over the tube of
index 1, whose own height is `tubeHeights[1] = 25` (pillars at y <= 7 and y >= 22), so
under the per-tube rule of the claim no tube is hit, yet `checkCollision` reports a
collision because it tests every tube against `tubeHeights[0] = 20`. -/
theorem checkCollision_uses_first_height_only :
    (gameLoop initialTubeHeights
        (List.replicate 38 (idleInput 0) ++ List.replicate 12 (steer .N))).map
      (fun r => (r.1, r.2.tubeSections, r.2.tubeHeights, r.2.xBirdPosition,
        r.2.yBirdPosition)) =
      some (.collided, [19, 39, 59, 179 / 2], [20, 25, 15, 30, 10], 42, 12) ∧
    checkCollision [19, 39, 59, 179 / 2] [20, 25, 15, 30, 10] 42 12 = some true ∧
    ¬ specCollides [19, 39, 59, 179 / 2] [20, 25, 15, 30, 10] 42 12 := by
  refine ⟨by decide!, by decide!, ?_⟩
  rintro ⟨i, x, h, hi, hh, hit⟩
  rcases i with _ | _ | _ | _ | i
  · simp at hi hh; subst hi hh; norm_num [specHits] at hit
  · simp at hi hh; subst hi hh; norm_num [specHits] at hit
  · simp at hi hh; subst hi hh; norm_num [specHits] at hit
  · simp at hi hh; subst hi hh; norm_num [specHits] at hit
  · simp at hi

/-- C3 (the code departs from the claim): in the round played with the joystick
centred, the bird stays at x = 42 and no tube is spawned in the first 40 iterations;
after 38 iterations the score is 0, after 39 it is 1 and after 40 it is 2, although
only the first tube (at 34, trailing edge 39) has been cleared: the other two are at 54
and 74.  The set holds that one tube twice, under its positions 35.5 and 34. -/
theorem gameLoop_credits_one_tube_twice :
    (gameLoop initialTubeHeights (List.replicate 38 (idleInput 0))).map
      (fun r => (r.1, r.2.score, r.2.tubeSections, r.2.xBirdPosition)) =
      some (.running, 0, [37, 57, 77], 42) ∧
    (gameLoop initialTubeHeights (List.replicate 39 (idleInput 0))).map
      (fun r => (r.1, r.2.score, r.2.tubeSections, r.2.xBirdPosition)) =
      some (.running, 1, [71 / 2, 111 / 2, 151 / 2], 42) ∧
    (gameLoop initialTubeHeights (List.replicate 40 (idleInput 0))).map
      (fun r => (r.1, r.2.score, r.2.tubeSections, r.2.xBirdPosition)) =
      some (.running, 2, [34, 54, 74], 42) ∧
    (gameLoop initialTubeHeights (List.replicate 40 (idleInput 0))).map
      (fun r => (r.2.passedTubes, r.2.tubeHeights)) =
      some ({34, 71 / 2}, initialTubeHeights) := by
  refine ⟨by decide!, by decide!, by decide!, by decide!⟩

/-- C4 (the code departs from the claim): in the round played with the joystick centred,
after 51 iterations the tubes are at 17.5, 37.5, 57.5 and 88, the bird is at x = 42 and
the first tube is already in the passed set under its position 17.5.  In iteration 52
no collision is detected and one tube is newly cleared (the second, now at 36), yet
`checkScoreUpdate` inserts two entries into the passed set, 16 and 36: the first tube,
credited before, is inserted again under its new position 16.  The score goes up by
one, not by the number of entries inserted. -/
theorem tick_two_inserted_one_scored :
    (gameLoop initialTubeHeights (List.replicate 51 (idleInput 0))).bind (fun r =>
      (tick r.2 (idleInput 0)).map (fun r1 =>
        (r.1, r1.1, r1.2.score - r.2.score, (r1.2.passedTubes \ r.2.passedTubes).card))) =
      some (.running, .running, 1, 2) ∧
    (gameLoop initialTubeHeights (List.replicate 51 (idleInput 0))).bind (fun r =>
      (tick r.2 (idleInput 0)).map (fun r1 => (r1.2.tubeSections, r1.2.xBirdPosition))) =
      some ([16, 36, 56, 173 / 2], 42) ∧
    (gameLoop initialTubeHeights (List.replicate 51 (idleInput 0))).map (fun r =>
      (r.2.tubeSections, decide ((35 / 2 : ℚ) ∈ r.2.passedTubes),
        decide ((75 / 2 : ℚ) ∈ r.2.passedTubes), decide ((16 : ℚ) ∈ r.2.passedTubes),
        decide ((36 : ℚ) ∈ r.2.passedTubes))) =
      some ([35 / 2, 75 / 2, 115 / 2, 88], true, false, false, false) ∧
    (gameLoop initialTubeHeights (List.replicate 52 (idleInput 0))).map (fun r =>
      (decide ((16 : ℚ) ∈ r.2.passedTubes), decide ((36 : ℚ) ∈ r.2.passedTubes))) =
      some (true, true) := by
  refine ⟨by decide!, by decide!, by decide!, by decide!⟩

/-- What the loop body does with the flag of `checkScoreUpdate`: in every iteration in
which no collision is detected (the iteration falls through to the next), the score
increases by 1 when `checkScoreUpdate` inserts at least one entry into the passed set,
and by 0 when it inserts none. -/
theorem tick_score_increment (st st1 : GameState) (inp : TickInput)
    (h : tick st inp = some (.running, st1)) :
    st1.score = st.score + (if 0 < (st1.passedTubes \ st.passedTubes).card then 1 else 0) := by
  obtain ⟨-, -, -, -, -, hp, hs⟩ := tick_running st st1 inp h
  rw [hs, hp]
  by_cases hf : (checkScoreUpdate st1.tubeSections st.passedTubes st1.xBirdPosition).2 = true
  · rw [if_pos hf, if_pos ((checkScoreUpdate_flag_iff_grew _ _ _).mp hf)]
  · rw [if_neg hf, if_neg (fun hc => hf ((checkScoreUpdate_flag_iff_grew _ _ _).mpr hc))]

/-- An instance of `tick_score_increment`: one centred iteration from `twoTubesAhead`
inserts two entries and adds one to the score. -/
theorem tick_score_increment_witness :
    tick twoTubesAhead (idleInput 0) = some (.running, twoTubesPassed) ∧
    twoTubesPassed.score = twoTubesAhead.score +
      (if 0 < (twoTubesPassed.passedTubes \ twoTubesAhead.passedTubes).card then 1 else 0) :=
  ⟨by decide!, tick_score_increment twoTubesAhead twoTubesPassed (idleInput 0) (by decide!)⟩

/-- C5: for every tube list, passed set P and bird x, the passed set after
`checkScoreUpdate` is P united with the tubes s of the list with s > 0 and
birdX > s + 5, no element of P is removed, and the call returns true exactly when one
of those s was not already in P. -/
theorem checkScoreUpdate_passed_set (tubes : List ℚ) (P : Finset ℚ) (bx : ℚ) :
    (checkScoreUpdate tubes P bx).1 =
      P ∪ tubes.toFinset.filter (fun s => s > 0 ∧ bx > s + 5) ∧
    P ⊆ (checkScoreUpdate tubes P bx).1 ∧
    ((checkScoreUpdate tubes P bx).2 = true ↔ ∃ s ∈ tubes, s > 0 ∧ bx > s + 5 ∧ s ∉ P) := by
  refine ⟨checkScoreUpdate_set tubes P bx, ?_, checkScoreUpdate_flag tubes P bx⟩
  rw [checkScoreUpdate_set]
  exact Finset.subset_union_left

/-- C6: calling `checkScoreUpdate` a second time with the same tube list and bird x and
the passed set the first call produced returns false and leaves the set unchanged.
Scenario C: tube at 10, bird x = 16, empty set: the first call returns true and inserts
10, the second returns false. -/
theorem checkScoreUpdate_idempotent :
    (∀ (tubes : List ℚ) (P : Finset ℚ) (bx : ℚ),
      checkScoreUpdate tubes (checkScoreUpdate tubes P bx).1 bx =
        ((checkScoreUpdate tubes P bx).1, false)) ∧
    checkScoreUpdate [10] ∅ 16 = ({10}, true) ∧
    checkScoreUpdate [10] (checkScoreUpdate [10] ∅ 16).1 16 = ({10}, false) := by
  refine ⟨?_, by decide!, by decide!⟩
  intro tubes P bx
  apply Prod.ext
  · rw [checkScoreUpdate_set, checkScoreUpdate_set, Finset.union_assoc, Finset.union_self]
  · have hn : ¬ (checkScoreUpdate tubes (checkScoreUpdate tubes P bx).1 bx).2 = true := by
      rw [checkScoreUpdate_flag, checkScoreUpdate_set]
      rintro ⟨s, hs, h1, h2, h3⟩
      apply h3
      simp only [clearedTubes, Finset.mem_union, Finset.mem_filter, List.mem_toFinset]
      exact Or.inr ⟨hs, h1, h2⟩
    simpa using hn

/-- C7: for every tube list and every speed, after `updateTubes(speed)` no position in
`tubeSections` is <= 0. -/
theorem updateTubes_no_nonpositive (tubes : List ℚ) (hs : List Int) (speed : ℚ) (rnd : Int) :
    ¬ ∃ x ∈ (updateTubes tubes hs speed rnd).1, x ≤ 0 := by
  rintro ⟨x, hx, hle⟩
  rw [updateTubes_sections, List.mem_append] at hx
  rcases hx with hx | hx
  · exact absurd (moveTubes_pos speed tubes x hx) (not_lt.mpr hle)
  · split_ifs at hx
    · simp only [List.mem_singleton] at hx
      subst hx
      norm_num at hle
    · simp at hx

/-- The test `updatedSections.back()` reads the last element of the list: on the list
[100, 50], which is not ascending, the shifted list is [98.5, 48.5], its largest
position 98.5 is not < 64, and `updateTubes` appends a tube at 94 because the last
element 48.5 is. -/
theorem updateTubes_spawns_with_rightmost_beyond_64 :
    moveTubes (3 / 2) [100, 50] = [197 / 2, 97 / 2] ∧
    rightmost (moveTubes (3 / 2) [100, 50]) = some (197 / 2) ∧
    ¬ ((197 / 2 : ℚ) < 64) ∧
    (updateTubes [100, 50] initialTubeHeights (3 / 2) 0).1 = [197 / 2, 97 / 2, 94] := by
  refine ⟨by decide!, by decide!, by norm_num, by decide!⟩

/-- The spawn rule of `updateTubes` in terms of `back()`, for every tube list and every
speed: the result is the old positions minus speed that are > 0, in their original
order, followed by one tube at 94 exactly when that shifted list is empty or its last
element is < 64; the last element is the rightmost tube when the shifted list is
strictly ascending. -/
theorem updateTubes_spawn_rule (tubes : List ℚ) (hs : List Int) (speed : ℚ) (rnd : Int) :
    moveTubes speed tubes =
      (tubes.map (fun s => s - speed)).filter (fun p => decide (p > 0)) ∧
    ((moveTubes speed tubes = [] ∨
        ∃ back, (moveTubes speed tubes).getLast? = some back ∧ back < 64) →
      (updateTubes tubes hs speed rnd).1 = moveTubes speed tubes ++ [94]) ∧
    (¬ (moveTubes speed tubes = [] ∨
        ∃ back, (moveTubes speed tubes).getLast? = some back ∧ back < 64) →
      (updateTubes tubes hs speed rnd).1 = moveTubes speed tubes) ∧
    ((moveTubes speed tubes).Pairwise (fun a b => a < b) →
      (moveTubes speed tubes).getLast? = rightmost (moveTubes speed tubes)) := by
  refine ⟨moveTubes_eq_filter_map speed tubes, ?_, ?_, ?_⟩
  · intro hc
    rw [updateTubes_sections, if_pos ((spawnNeeded_iff _).mpr hc)]
  · intro hc
    rw [updateTubes_sections, if_neg (fun hsp => hc ((spawnNeeded_iff _).mp hsp)),
      List.append_nil]
  · exact getLast?_eq_rightmost_of_ascending _

/-- C8: for every tube list the program holds and every speed, `updateTubes(speed)`
yields the old positions minus speed that are > 0, in their original order, and appends
a new tube exactly when that shifted list is empty or its rightmost (largest-x) tube is
< 84 - 20 = 64; when it spawns, exactly one tube is appended and it is at
x = 84 + 10 = 94.  The global `tubeSections` is written only by `gameLoop` (the layout
{94, 114, 134}) and by `updateTubes` itself, so it is strictly ascending whenever
`updateTubes` is called: the rule is proved for every strictly ascending list and every
speed, for every list reached from the initial layout by repeated `updateTubes(1.5)`,
and for the tube list at the end of every run of `gameLoop`. -/
theorem updateTubes_spawn_rule_rightmost :
    (∀ (tubes : List ℚ) (hs : List Int) (speed : ℚ) (rnd : Int),
      tubes.Pairwise (fun a b => a < b) →
      specSpawnRule tubes (updateTubes tubes hs speed rnd).1 speed) ∧
    (∀ (rnds : List Int) (hs0 hs : List Int) (rnd : Int),
      specSpawnRule (updateTubesRepeated tubeSpeed rnds (initialTubes, hs0)).1
        (updateTubes (updateTubesRepeated tubeSpeed rnds (initialTubes, hs0)).1 hs
          tubeSpeed rnd).1 tubeSpeed) ∧
    (∀ (inputs : List TickInput) (hs0 hs : List Int) (s : TickStatus) (st : GameState)
        (rnd : Int), gameLoop hs0 inputs = some (s, st) →
      specSpawnRule st.tubeSections (updateTubes st.tubeSections hs tubeSpeed rnd).1
        tubeSpeed) ∧
    (updateTubes [94, 114, 134] initialTubeHeights tubeSpeed 0).1 =
      [185 / 2, 225 / 2, 265 / 2] ∧
    rightmost (moveTubes tubeSpeed [94, 114, 134]) = some (265 / 2) ∧
    (updateTubes [25, 45, 65] initialTubeHeights tubeSpeed 0).1 =
      [47 / 2, 87 / 2, 127 / 2, 94] ∧
    rightmost (moveTubes tubeSpeed [25, 45, 65]) = some (127 / 2) ∧
    (updateTubes [1] initialTubeHeights tubeSpeed 0).1 = [94] := by
  refine ⟨specSpawnRule_of_ascending, ?_, ?_, by decide!, by decide!, by decide!, by decide!,
    by decide!⟩
  · intro rnds hs0 hs rnd
    apply specSpawnRule_of_ascending
    rw [updateTubesRepeated_fst]
    exact advanceTubes_iterate_pairwise tubeSpeed _ _ initialTubes_pairwise
  · intro inputs hs0 hs s st rnd hr
    apply specSpawnRule_of_ascending
    obtain ⟨k, hk⟩ := runTicks_sections inputs (initialState hs0) st s hr
    rw [hk]
    exact advanceTubes_iterate_pairwise tubeSpeed k _ initialTubes_pairwise

/-- C9: for every tube list and every speed, the number of tubes after
`updateTubes(speed)` is at most the number before plus one: the result is the shifted
survivors alone or followed by one new tube, however many tubes were dropped. -/
theorem updateTubes_length_le (tubes : List ℚ) (hs : List Int) (speed : ℚ) (rnd : Int) :
    (updateTubes tubes hs speed rnd).1.length ≤ tubes.length + 1 ∧
    ((updateTubes tubes hs speed rnd).1 = moveTubes speed tubes ∨
      (updateTubes tubes hs speed rnd).1 = moveTubes speed tubes ++ [94]) ∧
    (moveTubes speed tubes).length ≤ tubes.length := by
  have hlen := moveTubes_length_le speed tubes
  refine ⟨?_, ?_, hlen⟩
  · rw [updateTubes_sections]
    split_ifs
    · simp only [List.length_append, List.length_singleton]
      omega
    · simp only [List.append_nil]
      omega
  · rw [updateTubes_sections]
    split_ifs
    · exact Or.inr rfl
    · exact Or.inl (List.append_nil _)

/-- C10: for every non-negative value r returned by `rand()`, the height that
`updateTubes` appends when it spawns a tube is 10 + r mod (32 - 10) and lies in
[minTubeHeight, maxTubeHeight] = [10, 32]. -/
theorem newTubeHeight_bounds (tubes : List ℚ) (hs : List Int) (speed : ℚ) (r : Int)
    (hr : 0 ≤ r) :
    (spawnNeeded (moveTubes speed tubes) = true →
      (updateTubes tubes hs speed r).2 = hs ++ [newTubeHeight r]) ∧
    newTubeHeight r = 10 + r % (32 - 10) ∧
    10 ≤ newTubeHeight r ∧ newTubeHeight r ≤ 32 := by
  have hmod : newTubeHeight r = 10 + r % (32 - 10) := by
    simp only [newTubeHeight, LCD_HEIGHT]
    rw [show ((48 : Int) - 16 - 10) = 32 - 10 by norm_num,
      Int.tmod_eq_emod hr (by norm_num)]
  refine ⟨?_, hmod, ?_, ?_⟩
  · intro hsp
    simp [updateTubes, hsp]
  · rw [hmod]; omega
  · rw [hmod]; omega

/-- C10 (witness): `rand()` returning 45 gives the height 10 + 45 mod 22 = 11. -/
theorem newTubeHeight_bounds_witness :
    (0 : Int) ≤ 45 ∧ newTubeHeight 45 = 11 ∧
    ((updateTubes [] initialTubeHeights tubeSpeed 45).2 = initialTubeHeights ++ [newTubeHeight 45]) ∧
    10 ≤ newTubeHeight 45 ∧ newTubeHeight 45 ≤ 32 :=
  ⟨by decide, by decide,
    (newTubeHeight_bounds [] initialTubeHeights tubeSpeed 45 (by decide)).1 (by decide),
    (newTubeHeight_bounds [] initialTubeHeights tubeSpeed 45 (by decide)).2.2⟩

/-- C11: the gap-height sequence is append-only.  For every call of `updateTubes` the
old `tubeHeights` is a prefix of the new one, whose length grows by exactly 1 when a tube
is spawned in that call and by 0 otherwise; hence, starting from {20, 25, 15, 30} (or
from any vector that extends it, as in a later round), the vector is never empty after
any number of calls of `updateTubes` and at the end of any run of `gameLoop`, which
therefore always has a defined outcome. -/
theorem tubeHeights_append_only :
    (∀ (tubes : List ℚ) (hs : List Int) (speed : ℚ) (rnd : Int),
      hs <+: (updateTubes tubes hs speed rnd).2 ∧
      (spawnNeeded (moveTubes speed tubes) = true →
        (updateTubes tubes hs speed rnd).1 = moveTubes speed tubes ++ [94] ∧
        (updateTubes tubes hs speed rnd).2.length = hs.length + 1) ∧
      (spawnNeeded (moveTubes speed tubes) = false →
        (updateTubes tubes hs speed rnd).1 = moveTubes speed tubes ∧
        (updateTubes tubes hs speed rnd).2.length = hs.length)) ∧
    (∀ (rnds : List Int) (tubes : List ℚ) (hs : List Int) (speed : ℚ),
      initialTubeHeights <+: hs →
      initialTubeHeights <+: (updateTubesRepeated speed rnds (tubes, hs)).2 ∧
      (updateTubesRepeated speed rnds (tubes, hs)).2 ≠ []) ∧
    (∀ (inputs : List TickInput) (hs : List Int), initialTubeHeights <+: hs →
      ∃ s st, gameLoop hs inputs = some (s, st) ∧
        hs <+: st.tubeHeights ∧ st.tubeHeights ≠ []) := by
  have hinit : initialTubeHeights ≠ [] := by simp [initialTubeHeights]
  refine ⟨?_, ?_, ?_⟩
  · intro tubes hs speed rnd
    refine ⟨updateTubes_heights_extend _ _ _ _, ?_, ?_⟩
    · intro hsp
      rw [updateTubes_sections, updateTubes_heights, if_pos hsp, if_pos hsp]
      exact ⟨rfl, by simp⟩
    · intro hsp
      have hn : ¬ spawnNeeded (moveTubes speed tubes) = true := by simp [hsp]
      rw [updateTubes_sections, updateTubes_heights, if_neg hn, if_neg hn]
      exact ⟨List.append_nil _, by simp⟩
  · intro rnds tubes hs speed hp
    have hp2 := hp.trans (updateTubesRepeated_heights_extend speed rnds (tubes, hs))
    exact ⟨hp2, ne_nil_of_extends hinit hp2⟩
  · intro inputs hs hp
    have hne : (initialState hs).tubeHeights ≠ [] := ne_nil_of_extends hinit hp
    obtain ⟨⟨s, st⟩, hr⟩ := runTicks_isSome inputs (initialState hs) hne
    have hp2 := runTicks_heights_extend inputs (initialState hs) st s hr
    exact ⟨s, st, hr, hp2, ne_nil_of_extends hne hp2⟩

/-- C12: for every raw bird position (x, y), `boundary()` sets it to
(min(max(x, 1), 81), min(max(y, 1), 45)); the result always lies in [1, 81] x [1, 45], a
position already in that range is left unchanged, and applying `boundary()` twice equals
applying it once. -/
theorem boundary_clamps :
    (∀ x y : ℚ, boundary (x, y) = (min (max x 1) 81, min (max y 1) 45)) ∧
    (∀ x y : ℚ, 1 ≤ (boundary (x, y)).1 ∧ (boundary (x, y)).1 ≤ 81 ∧
      1 ≤ (boundary (x, y)).2 ∧ (boundary (x, y)).2 ≤ 45) ∧
    (∀ x y : ℚ, 1 ≤ x → x ≤ 81 → 1 ≤ y → y ≤ 45 → boundary (x, y) = (x, y)) ∧
    (∀ x y : ℚ, boundary (boundary (x, y)) = boundary (x, y)) ∧
    boundary (-3, 100) = (1, 45) ∧ boundary (42, 24) = (42, 24) := by
  refine ⟨boundary_eq_clamp, boundary_mem_range, boundary_of_mem_range, ?_, by decide!,
    by decide!⟩
  intro x y
  obtain ⟨h1, h2, h3, h4⟩ := boundary_mem_range x y
  exact boundary_of_mem_range _ _ h1 h2 h3 h4

/-- C13: for every bird state the motion switch of `gameLoop` changes the position by
the unit delta of the direction (N: y-1, S: y+1, E: x+1, W: x-1, diagonals both axes)
and sets `isMovingUp` to true for N/NE/NW, to false for S/SE/SW, and leaves it unchanged
for E, W and the no-direction case; in the no-direction case the position is unchanged
too, stays unchanged after `boundary()` when it was within [1, 81] x [1, 45], and so is
unchanged by a whole iteration that goes on to the next one. -/
theorem moveBird_unit_deltas :
    (∀ (x y : ℚ) (up : Bool),
      moveBird .N x y up = (x, y - 1, true) ∧
      moveBird .S x y up = (x, y + 1, false) ∧
      moveBird .E x y up = (x + 1, y, up) ∧
      moveBird .W x y up = (x - 1, y, up) ∧
      moveBird .NE x y up = (x + 1, y - 1, true) ∧
      moveBird .NW x y up = (x - 1, y - 1, true) ∧
      moveBird .SE x y up = (x + 1, y + 1, false) ∧
      moveBird .SW x y up = (x - 1, y + 1, false) ∧
      moveBird .CENTRE x y up = (x, y, up)) ∧
    (∀ (x y : ℚ) (up : Bool), 1 ≤ x → x ≤ 81 → 1 ≤ y → y ≤ 45 →
      boundary ((moveBird .CENTRE x y up).1, (moveBird .CENTRE x y up).2.1) = (x, y)) ∧
    (∀ (st st1 : GameState) (inp : TickInput), inp.direction = .CENTRE →
      1 ≤ st.xBirdPosition → st.xBirdPosition ≤ 81 →
      1 ≤ st.yBirdPosition → st.yBirdPosition ≤ 45 →
      tick st inp = some (.running, st1) →
      st1.xBirdPosition = st.xBirdPosition ∧ st1.yBirdPosition = st.yBirdPosition) ∧
    (tick (initialState initialTubeHeights) (idleInput 0)).map
      (fun r => (r.1, r.2.xBirdPosition, r.2.yBirdPosition, r.2.isMovingUp)) =
      some (.running, 42, 24, false) := by
  refine ⟨?_, ?_, ?_, by decide!⟩
  · intro x y up
    exact ⟨rfl, rfl, rfl, rfl, rfl, rfl, rfl, rfl, rfl⟩
  · intro x y up h1 h2 h3 h4
    exact boundary_of_mem_range x y h1 h2 h3 h4
  · intro st st1 inp hd h1 h2 h3 h4 ht
    have hpos := (tick_running st st1 inp ht).2.2.2.1
    rw [hd] at hpos
    have hb := boundary_of_mem_range st.xBirdPosition st.yBirdPosition h1 h2 h3 h4
    simp only [moveBird] at hpos
    rw [hb] at hpos
    exact ⟨(Prod.mk.inj hpos).1, (Prod.mk.inj hpos).2⟩

/-- C14: an iteration that ends the round never changes the score or the passed set.
In every state, if the stop button is pressed the iteration ends `stopped` with the
state (tubes, heights, bird, score, passed set) exactly as it was, and an iteration
ends `stopped` only so; if `checkCollision` reports a collision the iteration ends with
the score and the passed set it started with. -/
theorem tick_round_end_keeps_score :
    (∀ (st : GameState) (inp : TickInput), inp.buttonJoystick = false →
      tick st inp = some (.stopped, st)) ∧
    (∀ (st st1 : GameState) (inp : TickInput), tick st inp = some (.stopped, st1) →
      inp.buttonJoystick = false ∧ st1 = st) ∧
    (∀ (st st1 : GameState) (inp : TickInput), tick st inp = some (.collided, st1) →
      st1.score = st.score ∧ st1.passedTubes = st.passedTubes) ∧
    (tick tubeAtBird (idleInput 0)).map
      (fun r => (r.1, r.2.tubeSections, r.2.score, r.2.passedTubes)) =
      some (.collided, [42, 117 / 2, 94], 3, {10}) := by
  refine ⟨tick_stopped, ?_, ?_, by decide!⟩
  · intro st st1 inp ht
    by_cases hb : inp.buttonJoystick = true
    · exact absurd rfl (tick_not_pressed st st1 inp .stopped hb ht).1
    · have hb1 : inp.buttonJoystick = false := by simpa using hb
      rw [tick_stopped st inp hb1] at ht
      simp only [Option.some.injEq, Prod.mk.injEq, true_and] at ht
      exact ⟨hb1, ht.symm⟩
  · intro st st1 inp ht
    by_cases hb : inp.buttonJoystick = true
    · exact (tick_not_pressed st st1 inp .collided hb ht).2.2.2 rfl
    · have hb1 : inp.buttonJoystick = false := by simpa using hb
      rw [tick_stopped st inp hb1] at ht
      simp at ht

/-- C15 (the code departs from the claim): in the round played with the joystick
centred the bird stays at x = 42.  The tube spawned in iteration 68 is at 37 after 106
iterations (trailing edge 42, not yet exceeded) and at 35.5 after 107 (trailing edge
40.5, exceeded for the first time); no collision is detected, and the score is 51 before
and after iteration 107: the position 35.5 has been in the passed set since the first
tube stood there. -/
theorem gameLoop_cleared_tube_not_credited :
    (gameLoop initialTubeHeights (List.replicate 106 (idleInput 0))).map
      (fun r => (r.1, r.2.score, r.2.tubeSections, r.2.xBirdPosition)) =
      some (.running, 51, [11 / 2, 37, 137 / 2], 42) ∧
    (gameLoop initialTubeHeights (List.replicate 107 (idleInput 0))).map
      (fun r => (r.1, r.2.score, r.2.tubeSections, r.2.xBirdPosition)) =
      some (.running, 51, [4, 71 / 2, 67], 42) ∧
    (gameLoop initialTubeHeights (List.replicate 106 (idleInput 0))).map
      (fun r => decide ((71 / 2 : ℚ) ∈ r.2.passedTubes)) = some true ∧
    (gameLoop initialTubeHeights (List.replicate 67 (idleInput 0))).map
      (fun r => r.2.tubeSections) = some [27 / 2, 67 / 2, 64] ∧
    (gameLoop initialTubeHeights (List.replicate 68 (idleInput 0))).map
      (fun r => r.2.tubeSections) = some [12, 32, 125 / 2, 94] := by
  refine ⟨by decide!, by decide!, by decide!, by decide!, by decide!⟩

/-- C16: a traversable gap always exists.  For every gap height h in [10, 32] and every
tube position x there is a y with 1 <= y <= 45 such that for every bird x,
`checkCollision` on the single tube [x] with first height h returns false for the bird
at (bird x, y). -/
theorem traversable_gap_exists (x : ℚ) (h : Int) (hs : List Int) (h1 : 10 ≤ h)
    (h2 : h ≤ 32) :
    ∃ y : ℚ, 1 ≤ y ∧ y ≤ 45 ∧ ∀ bx : ℚ, checkCollision [x] (h :: hs) bx y = some false := by
  have c1 : (10 : ℚ) ≤ (h : ℚ) := by exact_mod_cast h1
  have c2 : (h : ℚ) ≤ 32 := by exact_mod_cast h2
  refine ⟨46 - (h : ℚ), by linarith, by linarith, ?_⟩
  intro bx
  rw [checkCollision_eq_decide]
  simp only [Option.some.injEq, decide_eq_false_iff_not]
  rintro ⟨s, _, _, _, _, hy | hy⟩
  · linarith
  · linarith

/-- C16 (witness): for the tube at 50 with gap height 20 there is such a y. -/
theorem traversable_gap_exists_witness :
    (10 : Int) ≤ 20 ∧ (20 : Int) ≤ 32 ∧
    ∃ y : ℚ, 1 ≤ y ∧ y ≤ 45 ∧ ∀ bx : ℚ, checkCollision [50] [20] bx y = some false :=
  ⟨by decide, by decide, traversable_gap_exists 50 20 [] (by decide) (by decide)⟩

/-- C18 (counterexample): there are no bird position, tube list and height list for
which `checkCollision` reports a collision, some tube s of the list is live and has the
bird within its horizontal span (s <= bx <= s + 5), and `checkScoreUpdate`, called on
that tube list and bird x with an empty passed set, marks that same tube s as passed. -/
theorem no_tube_both_hit_and_passed :
    ¬ ∃ (bx y : ℚ) (tubes : List ℚ) (hs : List Int) (s : ℚ),
      checkCollision tubes hs bx y = some true ∧ s ∈ tubes ∧ s > 0 ∧ s ≤ bx ∧ bx ≤ s + 5 ∧
      s ∈ (checkScoreUpdate tubes ∅ bx).1 := by
  rintro ⟨bx, y, tubes, hs, s, -, -, -, -, hle, hmem⟩
  rw [checkScoreUpdate_set] at hmem
  simp only [clearedTubes, Finset.empty_union, Finset.mem_filter, List.mem_toFinset] at hmem
  linarith [hmem.2.2]

/-- C18 (amended): scoring and collision never hit the same tube in the same state: for
every bird x, tube list and passed set, a tube s with the bird within its horizontal
span (s <= bx <= s + 5) is not newly marked as passed by `checkScoreUpdate`, because
marking needs bx > s + 5.  What can happen in one state is a collision with one tube and
the marking of another: with tubes [10, 40], first height 20 and the bird at (42, 30),
`checkCollision` reports a collision (with the tube at 40) and `checkScoreUpdate` with an
empty passed set marks the tube at 10. -/
theorem hit_tube_is_not_marked_passed :
    (∀ (bx : ℚ) (tubes : List ℚ) (P : Finset ℚ) (s : ℚ),
      s ≤ bx → bx ≤ s + 5 → s ∉ P → s ∉ (checkScoreUpdate tubes P bx).1) ∧
    checkCollision [10, 40] [20] 42 30 = some true ∧
    checkCollision [10] [20] 42 30 = some false ∧
    checkScoreUpdate [10, 40] ∅ 42 = ({10}, true) := by
  refine ⟨?_, by decide!, by decide!, by decide!⟩
  intro bx tubes P s _ hle hP hmem
  rw [checkScoreUpdate_set] at hmem
  simp only [clearedTubes, Finset.mem_union, Finset.mem_filter, List.mem_toFinset] at hmem
  rcases hmem with hmem | hmem
  · exact hP hmem
  · linarith [hmem.2.2]

/-- C20: the result of `checkCollision` depends on the height list only through its
first entry: for every bird position, every tube list and any two non-empty height lists
with the same first element, `checkCollision` returns the same Boolean; so the heights
`updateTubes` appends never influence collision. -/
theorem checkCollision_first_height_only :
    (∀ (bx y : ℚ) (tubes : List ℚ) (h : Int) (hs1 hs2 : List Int),
      checkCollision tubes (h :: hs1) bx y = checkCollision tubes (h :: hs2) bx y ∧
      ∃ b, checkCollision tubes (h :: hs1) bx y = some b) ∧
    (∀ (bx y : ℚ) (tubes tubes2 : List ℚ) (h : Int) (hs : List Int) (speed : ℚ) (rnd : Int),
      checkCollision tubes (updateTubes tubes2 (h :: hs) speed rnd).2 bx y =
        checkCollision tubes (h :: hs) bx y) ∧
    checkCollision [42] [20, 25, 15, 30] 42 10 = some true ∧
    checkCollision [42] [20, 40, 40, 40, 10] 42 10 = some true := by
  refine ⟨?_, ?_, by decide!, by decide!⟩
  · intro bx y tubes h hs1 hs2
    rw [checkCollision_eq_decide, checkCollision_eq_decide]
    exact ⟨rfl, _, rfl⟩
  · intro bx y tubes tubes2 h hs speed rnd
    rw [updateTubes_heights, List.cons_append, checkCollision_eq_decide,
      checkCollision_eq_decide]

/-- C17: the live tube list never grows unbounded.  In every state reachable from the
initial layout {94, 114, 134} by repeated `updateTubes(1.5)`, whatever `rand()` returns,
and so at the end of every run of `gameLoop`, `tubeSections` holds at most 4 tubes; 4 is
reached, for the first time after 47 calls. -/
theorem tubeSections_at_most_four :
    (∀ (rnds : List Int) (hs : List Int),
      (updateTubesRepeated tubeSpeed rnds (initialTubes, hs)).1.length ≤ 4) ∧
    (∀ (inputs : List TickInput) (hs : List Int) (s : TickStatus) (st : GameState),
      gameLoop hs inputs = some (s, st) → st.tubeSections.length ≤ 4) ∧
    initialTubes = [94, 114, 134] ∧
    (updateTubesRepeated tubeSpeed (List.replicate 47 0)
        (initialTubes, initialTubeHeights)).1 = [47 / 2, 87 / 2, 127 / 2, 94] := by
  refine ⟨?_, ?_, initialTubes_eq, by decide!⟩
  · intro rnds hs
    rw [updateTubesRepeated_fst]
    exact advanceTubes_iterate_length _
  · intro inputs hs s st hr
    obtain ⟨k, hk⟩ := runTicks_sections inputs (initialState hs) st s hr
    rw [hk]
    exact advanceTubes_iterate_length k

/-- C19: `updateTubes` preserves strict ascending order: for every strictly increasing
tube list and every speed the result of `updateTubes` is strictly increasing; so in
every state reachable from the initial layout {94, 114, 134} by repeated
`updateTubes(1.5)`, and at the end of every run of `gameLoop`, the tube list is strictly
increasing, and the last element of the shifted list, which the spawn condition tests
with `back()`, is its rightmost (largest-x) tube. -/
theorem updateTubes_keeps_ascending :
    (∀ (tubes : List ℚ) (hs : List Int) (speed : ℚ) (rnd : Int),
      tubes.Pairwise (fun a b => a < b) →
      (updateTubes tubes hs speed rnd).1.Pairwise (fun a b => a < b)) ∧
    (∀ (rnds : List Int) (hs : List Int),
      (updateTubesRepeated tubeSpeed rnds (initialTubes, hs)).1.Pairwise (fun a b => a < b) ∧
      (moveTubes tubeSpeed (updateTubesRepeated tubeSpeed rnds (initialTubes, hs)).1).getLast? =
        rightmost (moveTubes tubeSpeed
          (updateTubesRepeated tubeSpeed rnds (initialTubes, hs)).1)) ∧
    (∀ (inputs : List TickInput) (hs : List Int) (s : TickStatus) (st : GameState),
      gameLoop hs inputs = some (s, st) →
      st.tubeSections.Pairwise (fun a b => a < b) ∧
      (moveTubes tubeSpeed st.tubeSections).getLast? =
        rightmost (moveTubes tubeSpeed st.tubeSections)) ∧
    initialTubes = [94, 114, 134] ∧
    (updateTubes [1, 30, 60] initialTubeHeights tubeSpeed 0).1 = [57 / 2, 117 / 2, 94] := by
  refine ⟨?_, ?_, ?_, initialTubes_eq, by decide!⟩
  · intro tubes hs speed rnd h
    rw [updateTubes_fst_eq_advanceTubes]
    exact advanceTubes_pairwise speed tubes h
  · intro rnds hs
    have hp : (updateTubesRepeated tubeSpeed rnds (initialTubes, hs)).1.Pairwise
        (fun a b => a < b) := by
      rw [updateTubesRepeated_fst]
      exact advanceTubes_iterate_pairwise tubeSpeed _ _ initialTubes_pairwise
    exact ⟨hp, getLast?_eq_rightmost_of_ascending _ (moveTubes_pairwise _ _ hp)⟩
  · intro inputs hs s st hr
    obtain ⟨k, hk⟩ := runTicks_sections inputs (initialState hs) st s hr
    have hp : st.tubeSections.Pairwise (fun a b => a < b) := by
      rw [hk]
      exact advanceTubes_iterate_pairwise tubeSpeed k _ initialTubes_pairwise
    exact ⟨hp, getLast?_eq_rightmost_of_ascending _ (moveTubes_pairwise _ _ hp)⟩

end FlappyBird
